import Mathlib

/-
Verification of the PDFedit three-layer change-tracking and revision engine.

The repository sources contain the DocBook design documentation of the
CXref (ChangeLayer) and XRefWriter (RevisionManager) classes, the real
header of IProperty (kernel/iproperty.h) and the real scripting facade
Base (base.cc).  The C++ bodies of CXref and XRefWriter themselves are
not among the provided sources, so the engine below is modelled from the
specification text (spec.md sections 3, 4.2, 4.3) and the DocBook chapter
that documents those classes; IProperty and Base are embedded directly
from their source code.
-/

/-- Modelled from the spec: `ObjectId` is a pair (number, generation) of
non-negative integers identifying one logical object. -/
structure ObjectId where
  num : Nat
  gen : Nat
deriving DecidableEq, Repr

/-- Modelled from the spec: an object is a value of one of a closed set of
kinds (null, boolean, integer, real, string, name, array, dictionary,
stream, indirect-reference).  Aggregate payloads are opaque tags: no claim
inspects the inside of an array, dictionary or stream. -/
inductive Obj where
  | nullv
  | boolv (b : Bool)
  | intv (n : Int)
  | realv (n : Int)
  | strv (s : String)
  | namev (s : String)
  | arrv (tag : Nat)
  | dictv (tag : Nat)
  | streamv (tag : Nat)
  | refv (r : ObjectId)
deriving DecidableEq, Repr

/-- The ten valid object kinds. -/
inductive ObjKind where
  | kNull
  | kBool
  | kInt
  | kReal
  | kString
  | kName
  | kArray
  | kDict
  | kStream
  | kRef
deriving DecidableEq, Repr

/-- Kind of an object. -/
def Obj.kind : Obj → ObjKind
  | .nullv => .kNull
  | .boolv _ => .kBool
  | .intv _ => .kInt
  | .realv _ => .kReal
  | .strv _ => .kString
  | .namev _ => .kName
  | .arrv _ => .kArray
  | .dictv _ => .kDict
  | .streamv _ => .kStream
  | .refv _ => .kRef

/-- Modelled from the spec: a pending entry associates an ObjectId with a
changed object value (INITIALIZED), a tombstone marking deletion, or a
newly reserved not-yet-initialized slot (RESERVED). -/
inductive PendingEntry where
  | reservedE
  | initializedE (v : Obj)
  | tombstoneE
deriving DecidableEq, Repr

/-- An entry of an on-disk cross-reference section: either an object value
written in that section, or a freed (deleted) marker. -/
inductive SectionEntry where
  | val (v : Obj)
  | freed
deriving DecidableEq, Repr

/-- One on-disk update section: the objects (and tombstones) one committed
revision wrote, as an association list keyed by ObjectId. -/
def XrefSection := List (ObjectId × SectionEntry)
deriving instance DecidableEq, Repr for XrefSection

/-- First-match association-list lookup (the resolution rule used by the
pending map and by each cross-reference section). -/
def assocLookup {α β : Type} [DecidableEq α] : List (α × β) → α → Option β
  | [], _ => none
  | q :: rest, a => if q.1 = a then some q.2 else assocLookup rest a

/-- Insert-or-overwrite update of an association list, keeping key order
and key uniqueness. -/
def assocSet {α β : Type} [DecidableEq α] : List (α × β) → α → β → List (α × β)
  | [], a, b => [(a, b)]
  | q :: rest, a, b => if q.1 = a then (a, b) :: rest else q :: assocSet rest a b

theorem assocLookup_assocSet_self {α β : Type} [DecidableEq α]
    (l : List (α × β)) (a : α) (b : β) :
    assocLookup (assocSet l a b) a = some b := by
  induction l with
  | nil => simp [assocSet, assocLookup]
  | cons q rest ih =>
    by_cases h : q.1 = a
    · simp [assocSet, h, assocLookup]
    · simp [assocSet, h, assocLookup, ih]

theorem assocLookup_assocSet_ne {α β : Type} [DecidableEq α]
    (l : List (α × β)) (a a' : α) (b : β) (h : a ≠ a') :
    assocLookup (assocSet l a b) a' = assocLookup l a' := by
  induction l with
  | nil => simp [assocSet, assocLookup, h]
  | cons q rest ih =>
    by_cases hq : q.1 = a
    · simp [assocSet, hq, assocLookup, h]
    · simp [assocSet, hq, assocLookup, ih]

theorem assocLookup_mem {α β : Type} [DecidableEq α]
    {l : List (α × β)} {a : α} {b : β} (h : assocLookup l a = some b) :
    (a, b) ∈ l := by
  induction l with
  | nil => simp [assocLookup] at h
  | cons q rest ih =>
    obtain ⟨qa, qb⟩ := q
    by_cases hq : qa = a
    · subst hq
      simp [assocLookup] at h
      subst h
      exact List.mem_cons_self _ _
    · simp [assocLookup, hq] at h
      exact List.mem_cons_of_mem _ (ih h)

/-- Modelled from the spec: the whole document state kept by the layered
engine; the C++ classes CXref and XRefWriter are absent from the provided
sources, so their state is reconstructed from spec.md and the DocBook
chapter.  `committed` are the durable on-disk revisions (oldest first),
`temp` is the superseded-on-next-save temporarily written section,
`active` is the active revision pointer, `pending` is the in-memory
pending map of the editing session and `nextNum` the next fresh object
number used by reserveRef. -/
structure XRefWriter where
  committed : List XrefSection
  temp : Option XrefSection
  active : Nat
  pending : List (ObjectId × PendingEntry)
  nextNum : Nat
deriving DecidableEq, Repr

/-- Resolution over a newest-first list of sections: the first section
that mentions the id decides (a freed marker makes the object absent). -/
def viewFetchRev : List XrefSection → ObjectId → Option Obj
  | [], _ => none
  | s :: rest, id =>
    match assocLookup s id with
    | some (.val v) => some v
    | some .freed => none
    | none => viewFetchRev rest id

/-- Resolution over an oldest-first list of sections ("the newest
revision's view always wins"). -/
def viewFetch (secs : List XrefSection) (id : ObjectId) : Option Obj :=
  viewFetchRev secs.reverse id

/-- The BaseTable view of the document: the committed sections up to and
including the active revision. -/
def baseView (d : XRefWriter) : List XrefSection :=
  d.committed.take (d.active + 1)

/-- Modelled from the spec: `BaseTable.fetch` — resolve an id through the
chain of parsed cross-reference sections of the active revision window. -/
def baseFetch (d : XRefWriter) (id : ObjectId) : Option Obj :=
  viewFetch (baseView d) id

/-- Modelled from the spec: ChangeLayer `fetch(id)` — the pending map is
consulted first, then BaseTable; a RESERVED slot and a tombstone are not
observable by ordinary fetch. -/
def fetch (d : XRefWriter) (id : ObjectId) : Option Obj :=
  match assocLookup d.pending id with
  | some (.initializedE v) => some v
  | some .reservedE => none
  | some .tombstoneE => none
  | none => baseFetch d id

/-- Modelled from the spec: `changeObject(id, newValue)` inserts or
overwrites the pending entry for the id; a RESERVED entry transitions to
INITIALIZED.  No type or existence checking is performed here. -/
def changeObject (d : XRefWriter) (id : ObjectId) (v : Obj) : XRefWriter :=
  { d with pending := assocSet d.pending id (.initializedE v) }

/-- Modelled from the spec: `deleteObject(id)` tombstones the pending
entry. -/
def deleteObject (d : XRefWriter) (id : ObjectId) : XRefWriter :=
  { d with pending := assocSet d.pending id .tombstoneE }

/-- Modelled from the spec: `reserveRef()` allocates a fresh previously
unused id, marks it RESERVED and returns it. -/
def reserveRef (d : XRefWriter) : XRefWriter × ObjectId :=
  let id : ObjectId := ⟨d.nextNum, 0⟩
  ({ d with pending := assocSet d.pending id .reservedE, nextNum := d.nextNum + 1 }, id)

/-- Largest object number mentioned by a list of sections (0 when none). -/
def maxNumSecs (secs : List XrefSection) : Nat :=
  secs.foldl (fun acc s => s.foldl (fun a e => max a e.1.num) acc) 0

/-- Modelled from the spec: opening a document parses however many table
generations exist on disk, positions the active revision at the newest
one, starts with an empty pending map, and primes identifier allocation
past every object number present in the parsed tables. -/
def openDoc (secs : List XrefSection) : XRefWriter :=
  { committed := secs
    temp := none
    active := secs.length - 1
    pending := []
    nextNum := maxNumSecs secs + 1 }

/-- Boolean bound: every id mentioned in the given sections has object
number below `n`. -/
def keysBound (n : Nat) (secs : List XrefSection) : Bool :=
  secs.all (fun s => s.all (fun e => decide (e.1.num < n)))

/-- Modelled from the spec: `typeSafe` works on the kinds of objects after
resolving indirect references through `fetch` (an unresolvable reference
yields the null object, as the underlying XRef fetch does). -/
def fetchedKind (d : XRefWriter) (o : Obj) : ObjKind :=
  match o with
  | .refv r =>
    match fetch d r with
    | some v => v.kind
    | none => .kNull
  | _ => o.kind

/-- Comparison rule on (already fetched) kinds: the new kind must equal
the old one, unless the old object is a pdf null object. -/
def typeSafeKind (k1 k2 : ObjKind) : Bool :=
  decide (k1 = k2) || decide (k1 = ObjKind.kNull)

/-- Modelled from the spec: `typeSafe(obj1, obj2)` — replacing obj1 by
obj2 is structurally sound: same kind if neither is a reference, fetched
kinds compared when at least one is a reference, and a null obj1 may be
replaced by anything.  It is a pure predicate: it returns a Bool and does
not produce an updated document state. -/
def typeSafe (d : XRefWriter) (a b : Obj) : Bool :=
  typeSafeKind (fetchedKind d a) (fetchedKind d b)

/-- Modelled from the spec: save modes — temporal saving (default) and
revision saving. -/
inductive SaveMode where
  | temporary
  | newRevision
deriving DecidableEq, Repr

/-- Error reported by a failed save. -/
inductive SaveErr where
  | saveIOFailure
deriving DecidableEq, Repr

/-- The update section a save writes: every pending entry of the session
— changed objects as values, tombstones as freed markers; RESERVED slots
never received an object and produce no bytes. -/
def sectionOf (pending : List (ObjectId × PendingEntry)) : XrefSection :=
  pending.filterMap (fun q =>
    match q.2 with
    | .initializedE v => some (q.1, SectionEntry.val v)
    | .tombstoneE => some (q.1, SectionEntry.freed)
    | .reservedE => none)

/-- Modelled from the spec: `save(mode)` appends the pending section to
the file.  Temporary saving leaves every in-memory structure untouched
(the written section sits at the store position and is rewritten by the
next save).  Revision saving makes the written section a new committed
revision, clears the pending map and reopens past the written bytes,
advancing the active revision pointer by one.  An I/O failure (modelled
by the `ioOk` input of the byte writer) reports `saveIOFailure` and
leaves the in-memory model exactly as it was. -/
def save (d : XRefWriter) (mode : SaveMode) (ioOk : Bool) :
    XRefWriter × Option SaveErr :=
  if ioOk then
    match mode with
    | .temporary =>
      ({ d with temp := some (sectionOf d.pending) }, none)
    | .newRevision =>
      ({ committed := d.committed ++ [sectionOf d.pending]
         temp := none
         active := d.active + 1
         pending := []
         nextNum := d.nextNum }, none)
  else
    (d, some .saveIOFailure)

/-- Number of revisions known to the in-memory table. -/
def revisionCount (d : XRefWriter) : Nat :=
  d.committed.length

/-- Modelled from the spec: `clone(targetPath)` copies all bytes of the
document up to and including the active revision into a new file; the
clone is the document obtained by opening that file. -/
def cloneDoc (d : XRefWriter) : XRefWriter :=
  openDoc (d.committed.take (d.active + 1))

/-- Candidate ids of a document: everything mentioned by the base view or
by the pending map. -/
def candIds (d : XRefWriter) : List ObjectId :=
  ((baseView d).foldr (fun (s : XrefSection) acc => List.map Prod.fst s ++ acc) [] ++
    d.pending.map Prod.fst).dedup

/-- Modelled from the spec: `objectCount()` — the number of distinct ids
currently resolvable by ordinary fetch. -/
def objectCount (d : XRefWriter) : Nat :=
  ((candIds d).filter (fun id => (fetch d id).isSome)).length

/-- The counting rule stated by the spec: BaseTable live objects (those
not tombstoned or hidden by a reservation) plus INITIALIZED pending
entries; tombstoned and RESERVED-only ids are excluded. -/
def specLive (d : XRefWriter) (id : ObjectId) : Bool :=
  match assocLookup d.pending id with
  | some (.initializedE _) => true
  | some .reservedE => false
  | some .tombstoneE => false
  | none => (baseFetch d id).isSome

/-- Modelled from the spec: a mutation primitive invoked during one
editing session of an open table (saves/reopens end the session). -/
inductive MOp where
  | mchange (id : ObjectId) (v : Obj)
  | mdelete (id : ObjectId)
  | mreserve
deriving DecidableEq, Repr

/-- Apply one mutation primitive; a reserve step also yields the id it
returned. -/
def stepOp (d : XRefWriter) : MOp → XRefWriter × Option ObjectId
  | .mchange id v => (changeObject d id v, none)
  | .mdelete id => (deleteObject d id, none)
  | .mreserve =>
    let p := reserveRef d
    (p.1, some p.2)

/-- Run a session of mutation primitives, collecting every id returned by
reserveRef in call order. -/
def runOps : XRefWriter → List MOp → XRefWriter × List ObjectId
  | d, [] => (d, [])
  | d, op :: rest =>
    let p := stepOp d op
    let q := runOps p.1 rest
    (q.1, p.2.toList ++ q.2)

/-
Embedding of src/src/kernel/iproperty.h (real source code).
-/

/-- Object type tags of the underlying xpdf Object, as listed by the
PropertyType enum initializers in iproperty.h: ten valid kinds plus the
four sentinel tags objCmd, objError, objEOF, objNone. -/
inductive XpdfObjType where
  | objNull
  | objBool
  | objInt
  | objReal
  | objString
  | objName
  | objArray
  | objDict
  | objStream
  | objRef
  | objCmd
  | objError
  | objEOF
  | objNone
deriving DecidableEq, Repr

/-- The PropertyType enum of iproperty.h: pNull..pRef name the ten valid
kinds and pOther..pOther3 alias the four sentinel xpdf tags. -/
inductive PropertyType where
  | pNull
  | pBool
  | pInt
  | pReal
  | pString
  | pName
  | pArray
  | pDict
  | pStream
  | pRef
  | pOther
  | pOther1
  | pOther2
  | pOther3
deriving DecidableEq, Repr

/-- The static_cast from an xpdf object type to PropertyType: each enum
member of PropertyType is initialized with the corresponding obj* value,
so the cast is the value-preserving renaming. -/
def toPropertyType : XpdfObjType → PropertyType
  | .objNull => .pNull
  | .objBool => .pBool
  | .objInt => .pInt
  | .objReal => .pReal
  | .objString => .pString
  | .objName => .pName
  | .objArray => .pArray
  | .objDict => .pDict
  | .objStream => .pStream
  | .objRef => .pRef
  | .objCmd => .pOther
  | .objError => .pOther1
  | .objEOF => .pOther2
  | .objNone => .pOther3

/-- Sentinel test on xpdf object types: the four tags ruled out by the
assertions in IProperty's constructor and in getCObjectType. -/
def sentinelType (t : XpdfObjType) : Bool :=
  match t with
  | .objCmd => true
  | .objError => true
  | .objEOF => true
  | .objNone => true
  | _ => false

/-- Sentinel test on PropertyType: the debug-only members pOther..pOther3. -/
def sentinelProp (t : PropertyType) : Bool :=
  match t with
  | .pOther => true
  | .pOther1 => true
  | .pOther2 => true
  | .pOther3 => true
  | _ => false

/-- The xpdf Object as far as iproperty.h inspects it: its getType tag. -/
structure XpdfObject where
  otype : XpdfObjType
deriving DecidableEq, Repr

/-- An IProperty wrapper: holds its xpdf object together with the
constructor's assertion that the object's type is not a sentinel tag. -/
structure IProp where
  obj : XpdfObject
  valid : sentinelType obj.otype = false

/-- The IProperty(Object* o) constructor of iproperty.h: asserts that the
wrapped object's type is none of objCmd, objEOF, objNone, objError;
modelled as a guarded (Option-returning) constructor. -/
def mkIProperty (o : XpdfObject) : Option IProp :=
  if h : sentinelType o.otype = false then some ⟨o, h⟩ else none

/-- IProperty::getCObjectType of iproperty.h: asserts the stored object's
type is not a sentinel tag (guaranteed by the constructor) and returns it
cast to PropertyType. -/
def getCObjectType (p : IProp) : PropertyType :=
  toPropertyType p.obj.otype

/-
Embedding of Base::activeRevision and Base::revisions (real source code,
gui scripting facade base.cc).
-/

/-- The part of the CPdf document object the two accessors consult. -/
structure CPdfDoc where
  actualRevision : Nat
  revisionsCount : Nat
deriving DecidableEq, Repr

/-- The part of PdfEditWindow the Base accessors consult: the possibly
absent current document (w->document is NULL when no document is open). -/
structure PdfEditWindow where
  document : Option CPdfDoc
deriving DecidableEq, Repr

/-- Base::activeRevision: returns -1 when no document is open, otherwise
the document's actual revision. -/
def baseActiveRevision (w : PdfEditWindow) : Int :=
  match w.document with
  | none => -1
  | some d => Int.ofNat d.actualRevision

/-- Base::revisions: returns -1 when no document is open, otherwise the
document's revision count. -/
def baseRevisions (w : PdfEditWindow) : Int :=
  match w.document with
  | none => -1
  | some d => Int.ofNat d.revisionsCount

/-- Boolean per-entry check used as the reachable-state invariant of the
pending map: a RESERVED slot never shadows an id resolvable via
BaseTable (reserveRef only hands out ids absent from the parsed
tables). -/
def pendingFresh (d : XRefWriter) : Bool :=
  d.pending.all (fun q =>
    match q.2 with
    | .reservedE => (baseFetch d q.1).isNone
    | _ => true)

-- quick sanity checks of the resolution rule
example : viewFetch [[(⟨1, 0⟩, .val (.intv 5))], [(⟨1, 0⟩, .val (.intv 7))]] ⟨1, 0⟩
    = some (.intv 7) := by decide

example : viewFetch [[(⟨1, 0⟩, .val (.intv 5))], [(⟨1, 0⟩, .freed)]] ⟨1, 0⟩
    = none := by decide

example : fetch (changeObject (openDoc [[(⟨1, 0⟩, .val (.intv 5))]]) ⟨1, 0⟩ (.boolv true)) ⟨1, 0⟩
    = some (.boolv true) := by decide

/-
Helper lemmas.
-/

theorem kind_eq_null_iff (a : Obj) : a.kind = ObjKind.kNull ↔ a = Obj.nullv := by
  cases a <;> simp [Obj.kind]

theorem fetchedKind_of_not_ref (d : XRefWriter) (a : Obj) (h : a.kind ≠ ObjKind.kRef) :
    fetchedKind d a = a.kind := by
  cases a <;> simp [Obj.kind, fetchedKind] at h ⊢

/-
Claim theorems.
-/

/-- C3: typeSafe(a, b) is true whenever a is a null object, for any b; it is
false whenever a and b are both non-reference, non-null and of differing
kinds; and when at least one of a, b is an indirect reference the result is
determined by the kinds of the fetched objects (an equation that holds for
all arguments, references included).  In this embedding typeSafe returns a
Bool and produces no updated state, so it is side-effect free by
construction. -/
theorem c3_typeSafe_spec (d : XRefWriter) (a b : Obj) :
    (a.kind = ObjKind.kNull → typeSafe d a b = true) ∧
    (a.kind ≠ ObjKind.kRef → b.kind ≠ ObjKind.kRef → a.kind ≠ ObjKind.kNull →
      a.kind ≠ b.kind → typeSafe d a b = false) ∧
    typeSafe d a b = typeSafeKind (fetchedKind d a) (fetchedKind d b) := by
  refine ⟨?_, ?_, rfl⟩
  · intro h
    have ha : a = Obj.nullv := (kind_eq_null_iff a).mp h
    subst ha
    simp [typeSafe, typeSafeKind, fetchedKind, Obj.kind]
  · intro ha hb hnull hne
    rw [typeSafe, fetchedKind_of_not_ref d a ha, fetchedKind_of_not_ref d b hb]
    simp [typeSafeKind, hne, hnull]

/-- C3 witness: a null object may be replaced by anything, and a boolean may
not be replaced by an integer. -/
theorem c3_typeSafe_witness :
    ((Obj.nullv).kind = ObjKind.kNull ∧ typeSafe (openDoc []) Obj.nullv (Obj.intv 3) = true) ∧
    typeSafe (openDoc []) (Obj.boolv true) (Obj.intv 3) = false :=
  ⟨⟨rfl, (c3_typeSafe_spec (openDoc []) Obj.nullv (Obj.intv 3)).1 rfl⟩,
   (c3_typeSafe_spec (openDoc []) (Obj.boolv true) (Obj.intv 3)).2.1
     (by decide) (by decide) (by decide) (by decide)⟩

/-- A document holding a single RESERVED-only pending slot for id (1,0),
as produced by reserveRef on an empty document. -/
def c1Doc : XRefWriter :=
  { committed := [], temp := none, active := 0,
    pending := [(⟨1, 0⟩, PendingEntry.reservedE)], nextNum := 2 }

/-- C1 counterexample: on a document whose pending map holds a RESERVED-only
slot for id (1,0), fetch fails although the id is present in the pending
map — so "fetch fails with ObjectNotFound only when the id is absent from
both the pending map and BaseTable" does not hold as stated. -/
theorem c1_counterexample :
    ¬ (fetch c1Doc ⟨1, 0⟩ = none →
       (assocLookup c1Doc.pending ⟨1, 0⟩ = none ∧ baseFetch c1Doc ⟨1, 0⟩ = none)) := by
  decide

/-- C1 amended: fetch(id) right after changeObject(id, v) returns v, whatever
BaseTable holds for the id; and fetch(id) fails with ObjectNotFound exactly
when the id is absent from both the pending map and BaseTable, or its
pending entry is a RESERVED-only slot or a deletion tombstone. -/
theorem c1_fetch_amended (d : XRefWriter) (id : ObjectId) (v : Obj) :
    fetch (changeObject d id v) id = some v ∧
    (fetch d id = none ↔
      ((assocLookup d.pending id = none ∧ baseFetch d id = none) ∨
       assocLookup d.pending id = some PendingEntry.reservedE ∨
       assocLookup d.pending id = some PendingEntry.tombstoneE)) := by
  constructor
  · show (match assocLookup (assocSet d.pending id (PendingEntry.initializedE v)) id with
      | some (.initializedE w) => some w
      | some .reservedE => none
      | some .tombstoneE => none
      | none => baseFetch (changeObject d id v) id) = some v
    rw [assocLookup_assocSet_self]
  · cases h : assocLookup d.pending id with
    | none => simp [fetch, h]
    | some e => cases e <;> simp [fetch, h]

/-- C5: a successful Temporary save leaves the whole in-memory model
unchanged — the revision count, the committed revision list, the active
revision pointer and the pending map are untouched and every fetch result
is identical — while the written bytes (the temp section holding every
pending entry) do land on disk; a repeated Temporary save still leaves the
revision count unchanged. -/
theorem c5_temporary_save_frame (d : XRefWriter) :
    (save d SaveMode.temporary true).2 = none ∧
    revisionCount (save d SaveMode.temporary true).1 = revisionCount d ∧
    (save d SaveMode.temporary true).1.pending = d.pending ∧
    (save d SaveMode.temporary true).1.committed = d.committed ∧
    (save d SaveMode.temporary true).1.active = d.active ∧
    (∀ id, fetch (save d SaveMode.temporary true).1 id = fetch d id) ∧
    (save d SaveMode.temporary true).1.temp = some (sectionOf d.pending) ∧
    revisionCount ((save ((save d SaveMode.temporary true).1) SaveMode.temporary true).1)
      = revisionCount d :=
  ⟨rfl, rfl, rfl, rfl, rfl, fun _ => rfl, rfl, rfl⟩

/-- C6: for every state and either save mode, a save that reports an error
reports SaveIOFailure and leaves the in-memory model exactly as it was
before the call. -/
theorem c6_save_failure_atomic (d : XRefWriter) (mode : SaveMode) (ioOk : Bool)
    (e : SaveErr) (h : (save d mode ioOk).2 = some e) :
    (save d mode ioOk).1 = d ∧ e = SaveErr.saveIOFailure := by
  cases ioOk with
  | false => exact ⟨rfl, by cases e; rfl⟩
  | true => cases mode <;> simp [save] at h

/-- C6 witness: a failing NewRevision save on a freshly opened document with
one pending change leaves the document unchanged. -/
theorem c6_save_failure_witness :
    (save (changeObject (openDoc []) ⟨1, 0⟩ (Obj.intv 5)) SaveMode.newRevision false).1
      = changeObject (openDoc []) ⟨1, 0⟩ (Obj.intv 5) :=
  (c6_save_failure_atomic (changeObject (openDoc []) ⟨1, 0⟩ (Obj.intv 5))
    SaveMode.newRevision false SaveErr.saveIOFailure rfl).1

/-- C9: the IProperty constructor of iproperty.h only accepts objects whose
type is one of the ten valid kinds (its assertions reject the sentinel tags
objCmd, objEOF, objNone, objError), and getCObjectType on any wrapper never
yields one of the sentinel PropertyType members pOther..pOther3. -/
theorem c9_no_sentinel_wrapper :
    (∀ o p, mkIProperty o = some p → sentinelType o.otype = false) ∧
    (∀ o, sentinelType o.otype = true → mkIProperty o = none) ∧
    (∀ p : IProp, sentinelProp (getCObjectType p) = false) := by
  refine ⟨?_, ?_, ?_⟩
  · intro o p h
    by_cases hs : sentinelType o.otype = false
    · exact hs
    · simp [mkIProperty, hs] at h
  · intro o h
    simp [mkIProperty, h]
  · rintro ⟨⟨t⟩, hv⟩
    cases t <;> first
      | rfl
      | exact absurd hv (by decide)

/-- C9 witness: a dictionary object is wrapped successfully and its queried
kind is not a sentinel, while a command object is rejected by the
constructor. -/
theorem c9_no_sentinel_witness :
    sentinelType XpdfObjType.objDict = false ∧
    sentinelProp (getCObjectType ⟨⟨XpdfObjType.objDict⟩, rfl⟩) = false ∧
    mkIProperty ⟨XpdfObjType.objCmd⟩ = none :=
  ⟨c9_no_sentinel_wrapper.1 ⟨XpdfObjType.objDict⟩ ⟨⟨XpdfObjType.objDict⟩, rfl⟩ rfl,
   c9_no_sentinel_wrapper.2.2 ⟨⟨XpdfObjType.objDict⟩, rfl⟩,
   c9_no_sentinel_wrapper.2.1 ⟨XpdfObjType.objCmd⟩ rfl⟩

/-- C10: when no document is open, Base::activeRevision and Base::revisions
do not fail: each returns the sentinel value -1. -/
theorem c10_no_document_sentinel (w : PdfEditWindow) (h : w.document = none) :
    baseActiveRevision w = -1 ∧ baseRevisions w = -1 := by
  simp [baseActiveRevision, baseRevisions, h]

/-- C10 witness: the two accessors evaluated on a window with no open
document. -/
theorem c10_no_document_witness :
    baseActiveRevision ⟨none⟩ = -1 ∧ baseRevisions ⟨none⟩ = -1 :=
  c10_no_document_sentinel ⟨none⟩ rfl

/-- C7: a RESERVED-only pending slot is invisible to ordinary fetch
(ObjectNotFound); a first changeObject on a reserved id transitions its
entry to INITIALIZED carrying the new value; and objectCount counts
exactly the ids that the spec's rule declares live — BaseTable's live
objects plus INITIALIZED pending entries, with tombstoned and
RESERVED-only ids excluded. -/
theorem c7_reserved_semantics (d : XRefWriter) :
    (∀ id, assocLookup d.pending id = some PendingEntry.reservedE → fetch d id = none) ∧
    (∀ id v, assocLookup d.pending id = some PendingEntry.reservedE →
       assocLookup (changeObject d id v).pending id = some (PendingEntry.initializedE v)) ∧
    objectCount d = ((candIds d).filter (fun id => specLive d id)).length := by
  refine ⟨?_, ?_, ?_⟩
  · intro id h
    simp [fetch, h]
  · intro id v _
    simp [changeObject, assocLookup_assocSet_self]
  · unfold objectCount
    congr 1
    apply List.filter_congr
    intro id _
    cases h : assocLookup d.pending id with
    | none => simp [fetch, specLive, h]
    | some e => cases e <;> simp [fetch, specLive, h]

/-- The spec's worked scenario document: three base objects (ids 1, 2, 3)
and one freshly reserved reference, which receives number 4. -/
def c7Doc : XRefWriter :=
  (reserveRef (openDoc
    [[(⟨1, 0⟩, SectionEntry.val (Obj.intv 10)),
      (⟨2, 0⟩, SectionEntry.val (Obj.intv 20)),
      (⟨3, 0⟩, SectionEntry.val (Obj.intv 30))]])).1

/-- C7 witness: on the scenario document, reserveRef produced id 4 in state
RESERVED, fetch(4) fails, changeObject(4, someDict) transitions the entry
to INITIALIZED (after which fetch(4) returns the dictionary), and
objectCount then equals 4. -/
theorem c7_reserved_witness :
    assocLookup c7Doc.pending ⟨4, 0⟩ = some PendingEntry.reservedE ∧
    fetch c7Doc ⟨4, 0⟩ = none ∧
    assocLookup (changeObject c7Doc ⟨4, 0⟩ (Obj.dictv 9)).pending ⟨4, 0⟩
      = some (PendingEntry.initializedE (Obj.dictv 9)) ∧
    fetch (changeObject c7Doc ⟨4, 0⟩ (Obj.dictv 9)) ⟨4, 0⟩ = some (Obj.dictv 9) ∧
    objectCount (changeObject c7Doc ⟨4, 0⟩ (Obj.dictv 9)) = 4 :=
  ⟨by decide,
   (c7_reserved_semantics c7Doc).1 ⟨4, 0⟩ (by decide),
   (c7_reserved_semantics c7Doc).2.1 ⟨4, 0⟩ (Obj.dictv 9) (by decide),
   by decide,
   by decide⟩

/-- A document with three committed revisions whose active revision is the
middle one (revision 2 of 3, index 1), and no pending edits. -/
def c8Doc : XRefWriter :=
  { committed :=
      [[(⟨1, 0⟩, SectionEntry.val (Obj.intv 1))],
       [(⟨1, 0⟩, SectionEntry.val (Obj.intv 2))],
       [(⟨1, 0⟩, SectionEntry.val (Obj.intv 3))]]
    temp := none
    active := 1
    pending := []
    nextNum := 2 }

/-- C8 counterexample: cloning a document that sits at revision 2 of 3 does
not produce a document with revisionCount 1 — the clone keeps both
revisions up to and including the active one, so its revisionCount is 2. -/
theorem c8_counterexample :
    revisionCount c8Doc = 3 ∧ c8Doc.active = 1 ∧
    ¬ revisionCount (cloneDoc c8Doc) = 1 := by
  decide

/-- C8 amended: clone copies every revision up to and including the active
one (and nothing later), so the clone's revisionCount equals active + 1,
its latest revision is the source's active revision, it starts with an
empty pending map, and every id resolves in the clone to the source's
BaseTable value at the active revision. -/
theorem c8_clone_amended (d : XRefWriter) (h : d.active < d.committed.length) :
    revisionCount (cloneDoc d) = d.active + 1 ∧
    (cloneDoc d).active = d.active ∧
    (cloneDoc d).pending = [] ∧
    (cloneDoc d).committed = d.committed.take (d.active + 1) ∧
    ∀ id, fetch (cloneDoc d) id = baseFetch d id := by
  have hlen : (d.committed.take (d.active + 1)).length = d.active + 1 := by
    rw [List.length_take]
    omega
  refine ⟨?_, ?_, rfl, rfl, ?_⟩
  · simpa [revisionCount, cloneDoc, openDoc] using hlen
  · simp [cloneDoc, openDoc, hlen]
  · intro id
    show viewFetch (List.take ((cloneDoc d).active + 1) (d.committed.take (d.active + 1))) id
      = baseFetch d id
    have hact : (cloneDoc d).active = d.active := by simp [cloneDoc, openDoc, hlen]
    rw [hact, List.take_take, Nat.min_self]
    rfl

/-- C8 witness: the amended clone property evaluated on the concrete
revision-2-of-3 document. -/
theorem c8_clone_witness :
    revisionCount (cloneDoc c8Doc) = c8Doc.active + 1 ∧
    (cloneDoc c8Doc).active = c8Doc.active ∧
    fetch (cloneDoc c8Doc) ⟨1, 0⟩ = baseFetch c8Doc ⟨1, 0⟩ :=
  have h := c8_clone_amended c8Doc (by decide)
  ⟨h.1, h.2.1, h.2.2.2.2 ⟨1, 0⟩⟩

/-
Freshness of reserveRef along a session trace (claim C2).
-/

theorem viewFetchRev_none_of_keysBound (n : Nat) (secs : List XrefSection) (id : ObjectId)
    (hb : keysBound n secs = true) (hn : n ≤ id.num) :
    viewFetchRev secs id = none := by
  induction secs with
  | nil => rfl
  | cons s rest ih =>
    rw [keysBound, List.all_cons, Bool.and_eq_true] at hb
    have hs : assocLookup s id = none := by
      cases h : assocLookup s id with
      | none => rfl
      | some e =>
        exfalso
        have hm := assocLookup_mem h
        have hlt := List.all_eq_true.mp hb.1 _ hm
        simp at hlt
        omega
    simp only [viewFetchRev, hs]
    exact ih hb.2

theorem keysBound_reverse (n : Nat) (secs : List XrefSection)
    (h : keysBound n secs = true) : keysBound n secs.reverse = true := by
  rw [keysBound, List.all_eq_true] at h ⊢
  intro s hs
  exact h s (List.mem_reverse.mp hs)

theorem baseFetch_none_of_keysBound (d : XRefWriter) (id : ObjectId)
    (hb : keysBound d.nextNum (baseView d) = true) (hn : d.nextNum ≤ id.num) :
    baseFetch d id = none :=
  viewFetchRev_none_of_keysBound d.nextNum (baseView d).reverse id
    (keysBound_reverse _ _ hb) hn

theorem runOps_collected_lb (ops : List MOp) :
    ∀ d : XRefWriter, ∀ r ∈ (runOps d ops).2, d.nextNum ≤ r.num := by
  induction ops with
  | nil =>
    intro d r hr
    simp [runOps] at hr
  | cons op rest ih =>
    intro d r hr
    cases op with
    | mchange id v =>
      simp [runOps, stepOp] at hr
      exact ih (changeObject d id v) r hr
    | mdelete id =>
      simp [runOps, stepOp] at hr
      exact ih (deleteObject d id) r hr
    | mreserve =>
      simp [runOps, stepOp] at hr
      rcases hr with hre | hmem
      · subst hre
        exact Nat.le_refl _
      · have hstep := ih (reserveRef d).1 r hmem
        have h2 : d.nextNum + 1 ≤ r.num := hstep
        omega

theorem runOps_collected_nodup (ops : List MOp) :
    ∀ d : XRefWriter, (runOps d ops).2.Nodup := by
  induction ops with
  | nil =>
    intro d
    simp [runOps]
  | cons op rest ih =>
    intro d
    cases op with
    | mchange id v =>
      simp only [runOps, stepOp, Option.toList_none, List.nil_append]
      exact ih (changeObject d id v)
    | mdelete id =>
      simp only [runOps, stepOp, Option.toList_none, List.nil_append]
      exact ih (deleteObject d id)
    | mreserve =>
      simp only [runOps, stepOp, Option.toList_some, List.singleton_append, List.nodup_cons]
      refine ⟨?_, ih (reserveRef d).1⟩
      intro hmem
      have hlb := runOps_collected_lb rest (reserveRef d).1 _ hmem
      have h2 : d.nextNum + 1 ≤ d.nextNum := hlb
      omega

theorem runOps_base_frame (ops : List MOp) :
    ∀ d : XRefWriter,
      (runOps d ops).1.committed = d.committed ∧ (runOps d ops).1.active = d.active := by
  induction ops with
  | nil =>
    intro d
    exact ⟨rfl, rfl⟩
  | cons op rest ih =>
    intro d
    cases op with
    | mchange id v => exact ih (changeObject d id v)
    | mdelete id => exact ih (deleteObject d id)
    | mreserve => exact ih (reserveRef d).1

/-- C2: along any session of mutation primitives on one open table, no two
reserveRef calls return the same id, every returned id is unresolvable via
BaseTable (which the session never modifies: committed sections and the
active window stay fixed), and each call marks the id it returns
RESERVED. -/
theorem c2_reserveRef_fresh (d : XRefWriter) (ops : List MOp)
    (hb : keysBound d.nextNum (baseView d) = true) :
    (runOps d ops).2.Nodup ∧
    (∀ r ∈ (runOps d ops).2, baseFetch d r = none) ∧
    (runOps d ops).1.committed = d.committed ∧
    (runOps d ops).1.active = d.active ∧
    (∀ e : XRefWriter,
      assocLookup (reserveRef e).1.pending (reserveRef e).2 = some PendingEntry.reservedE) := by
  refine ⟨runOps_collected_nodup ops d, ?_,
    (runOps_base_frame ops d).1, (runOps_base_frame ops d).2, ?_⟩
  · intro r hr
    exact baseFetch_none_of_keysBound d r hb (runOps_collected_lb ops d r hr)
  · intro e
    exact assocLookup_assocSet_self _ _ _

/-- A freshly opened document with two base objects, for the C2 witness. -/
def c2Doc : XRefWriter :=
  openDoc [[(⟨1, 0⟩, SectionEntry.val (Obj.intv 1)),
            (⟨2, 0⟩, SectionEntry.val (Obj.intv 2))]]

/-- The C2 witness session: reserve, change an existing object, reserve
again. -/
def c2Ops : List MOp :=
  [MOp.mreserve, MOp.mchange ⟨1, 0⟩ (Obj.intv 7), MOp.mreserve]

/-- C2 witness: on the concrete session the collected reserveRef results are
pairwise distinct, the first one (id 3) is not resolvable via BaseTable,
and reserveRef marks its result RESERVED. -/
theorem c2_reserveRef_witness :
    (runOps c2Doc c2Ops).2.Nodup ∧
    baseFetch c2Doc ⟨3, 0⟩ = none ∧
    assocLookup (reserveRef c2Doc).1.pending (reserveRef c2Doc).2
      = some PendingEntry.reservedE :=
  have h := c2_reserveRef_fresh c2Doc c2Ops (by decide)
  ⟨h.1, h.2.1 ⟨3, 0⟩ (by decide), h.2.2.2.2 c2Doc⟩

/-
Correspondence between the written update section and the pending map
(claim C4).
-/

theorem assocLookup_sectionOf_not_mem (p : List (ObjectId × PendingEntry)) (id : ObjectId)
    (h : id ∉ p.map Prod.fst) :
    assocLookup (sectionOf p) id = none := by
  induction p with
  | nil => rfl
  | cons q rest ih =>
    obtain ⟨qa, qe⟩ := q
    simp only [List.map_cons, List.mem_cons, not_or] at h
    obtain ⟨h1, h2⟩ := h
    have hne : qa ≠ id := fun hh => h1 hh.symm
    cases qe with
    | reservedE =>
      simp only [sectionOf, List.filterMap_cons]
      exact ih h2
    | initializedE v =>
      simp only [sectionOf, List.filterMap_cons]
      simp only [assocLookup, hne, if_false]
      exact ih h2
    | tombstoneE =>
      simp only [sectionOf, List.filterMap_cons]
      simp only [assocLookup, hne, if_false]
      exact ih h2

theorem assocLookup_sectionOf (p : List (ObjectId × PendingEntry)) (id : ObjectId)
    (hnd : (p.map Prod.fst).Nodup) :
    assocLookup (sectionOf p) id =
      (match assocLookup p id with
       | some (PendingEntry.initializedE v) => some (SectionEntry.val v)
       | some PendingEntry.tombstoneE => some SectionEntry.freed
       | some PendingEntry.reservedE => none
       | none => none) := by
  induction p with
  | nil => rfl
  | cons q rest ih =>
    obtain ⟨qa, qe⟩ := q
    simp only [List.map_cons, List.nodup_cons] at hnd
    obtain ⟨hq1, hq2⟩ := hnd
    by_cases hid : qa = id
    · subst hid
      cases qe with
      | initializedE v =>
        simp only [sectionOf, List.filterMap_cons]
        simp [assocLookup]
      | tombstoneE =>
        simp only [sectionOf, List.filterMap_cons]
        simp [assocLookup]
      | reservedE =>
        simp only [sectionOf, List.filterMap_cons]
        simp only [assocLookup, if_pos rfl]
        exact assocLookup_sectionOf_not_mem rest qa hq1
    · cases qe with
      | initializedE v =>
        simp only [sectionOf, List.filterMap_cons]
        simp only [assocLookup, hid, if_false]
        exact ih hq2
      | tombstoneE =>
        simp only [sectionOf, List.filterMap_cons]
        simp only [assocLookup, hid, if_false]
        exact ih hq2
      | reservedE =>
        simp only [sectionOf, List.filterMap_cons]
        simp only [assocLookup, hid, if_false]
        exact ih hq2

/-- C4: a successful NewRevision save on a state with a non-empty pending
map (the session's edits, with the active revision the newest one and
reserved slots fresh with respect to BaseTable, as reserveRef guarantees)
increases revisionCount by exactly one, empties the pending map, advances
the active revision pointer by one, and leaves the fetch result of every
id — in particular every id touched in the session — unchanged. -/
theorem c4_newRevision_save (d : XRefWriter)
    (hpend : d.pending ≠ [])
    (hnd : (d.pending.map Prod.fst).Nodup)
    (hact : d.active + 1 = d.committed.length)
    (hres : pendingFresh d = true) :
    (save d SaveMode.newRevision true).2 = none ∧
    revisionCount (save d SaveMode.newRevision true).1 = revisionCount d + 1 ∧
    (save d SaveMode.newRevision true).1.pending = [] ∧
    (save d SaveMode.newRevision true).1.active = d.active + 1 ∧
    ∀ id, fetch (save d SaveMode.newRevision true).1 id = fetch d id := by
  have hbase : ∀ id, baseFetch d id = viewFetch d.committed id := by
    intro id
    rw [baseFetch, baseView, hact, List.take_length]
  refine ⟨rfl, ?_, rfl, rfl, ?_⟩
  · show (d.committed ++ [sectionOf d.pending]).length = d.committed.length + 1
    simp
  · intro id
    have hL : fetch (save d SaveMode.newRevision true).1 id
        = viewFetchRev (sectionOf d.pending :: d.committed.reverse) id := by
      show viewFetch
        (List.take (d.active + 1 + 1) (d.committed ++ [sectionOf d.pending])) id = _
      have hlen2 : (d.committed ++ [sectionOf d.pending]).length = d.active + 1 + 1 := by
        simp [← hact]
      rw [← hlen2, List.take_length, viewFetch, List.reverse_append]
      simp
    rw [hL]
    have hsec := assocLookup_sectionOf d.pending id hnd
    cases h : assocLookup d.pending id with
    | none =>
      rw [h] at hsec
      simp only [viewFetchRev, hsec]
      simp [fetch, h, hbase id, viewFetch]
    | some e =>
      cases e with
      | initializedE v =>
        rw [h] at hsec
        simp only [viewFetchRev, hsec]
        simp [fetch, h]
      | tombstoneE =>
        rw [h] at hsec
        simp only [viewFetchRev, hsec]
        simp [fetch, h]
      | reservedE =>
        rw [h] at hsec
        simp only [viewFetchRev, hsec]
        have hmem := assocLookup_mem h
        have hall := List.all_eq_true.mp hres _ hmem
        simp only [Option.isNone_iff_eq_none] at hall
        have hnone : baseFetch d id = none := hall
        calc viewFetchRev d.committed.reverse id
            = viewFetch d.committed id := rfl
          _ = baseFetch d id := (hbase id).symm
          _ = none := hnone
          _ = fetch d id := by simp [fetch, h]

/-- A freshly opened one-object document carrying one pending change, for
the C4 witness. -/
def c4Doc : XRefWriter :=
  changeObject (openDoc [[(⟨1, 0⟩, SectionEntry.val (Obj.intv 1))]]) ⟨1, 0⟩ (Obj.intv 9)

/-- C4 witness: the NewRevision save property evaluated on the concrete
one-change document, with the fetch-preservation conjunct instantiated at
the touched id (1,0). -/
theorem c4_newRevision_witness :
    (save c4Doc SaveMode.newRevision true).2 = none ∧
    revisionCount (save c4Doc SaveMode.newRevision true).1 = revisionCount c4Doc + 1 ∧
    (save c4Doc SaveMode.newRevision true).1.pending = [] ∧
    fetch (save c4Doc SaveMode.newRevision true).1 ⟨1, 0⟩ = fetch c4Doc ⟨1, 0⟩ :=
  have h := c4_newRevision_save c4Doc (by decide) (by decide) (by decide) (by decide)
  ⟨h.1, h.2.1, h.2.2.1, h.2.2.2.2 ⟨1, 0⟩⟩
